import Mathlib

/-!
Verification of the subreddit resolution and post-fetch pipeline of the
reddit-trends repository. The definitions below are a shallow embedding of
the server source (the file holding `redditThrottle`, `fetchJson`,
`resolveSubreddit`, `parseTopFromOldRedditHTML` and `fetchPosts`). Network
calls are modelled by an environment record that supplies, for each upstream
endpoint the code may contact, either an HTTP response, a timeout, or a
generic network error. JavaScript timestamps are natural numbers of
milliseconds; JavaScript string coercions and truthiness are translated at
each use site and noted there.
-/

/-! ## Character and string utilities (JS semantics helpers) -/

/-- JS word character test, as used by the regex classes `\w` and `\b`
(ASCII letters, digits, underscore). -/
def isWordChar (c : Char) : Bool :=
  c.isAlpha || c.isDigit || c = '_'

/-- A quote character, as matched by the regex class that accepts a double
or single quote. The single quote is compared by code point. -/
def isQuoteCh (c : Char) : Bool :=
  c = '"' || c.toNat = 39

/-- Case-sensitive: `pat` is a prefix of `l`. -/
def charsPrefix : List Char → List Char → Bool
  | [], _ => true
  | _ :: _, [] => false
  | p :: ps, c :: cs => p = c && charsPrefix ps cs

/-- Case-insensitive prefix test. -/
def charsPrefixCI : List Char → List Char → Bool
  | [], _ => true
  | _ :: _, [] => false
  | p :: ps, c :: cs => p.toLower = c.toLower && charsPrefixCI ps cs

/-- Case-sensitive substring occurrence, the translation of the JS
`String.prototype.includes` used by the source. -/
def charsContains (pat : List Char) : List Char → Bool
  | [] => charsPrefix pat []
  | c :: cs => charsPrefix pat (c :: cs) || charsContains pat cs

/-- Case-insensitive substring occurrence (for the `/.../i` substring
regex tests of the source). -/
def charsContainsCI (pat : List Char) : List Char → Bool
  | [] => charsPrefixCI pat []
  | c :: cs => charsPrefixCI pat (c :: cs) || charsContainsCI pat cs

/-- JS `String.prototype.trim`: strip whitespace from both ends. -/
def jsTrim (s : String) : String :=
  String.mk
    (((s.data.dropWhile Char.isWhitespace).reverse.dropWhile
        Char.isWhitespace).reverse)

/-- JS `String.prototype.toLowerCase` (ASCII range). -/
def jsToLower (s : String) : String := String.mk (s.data.map Char.toLower)

/-- `s.includes(pat)` on strings. -/
def strIncludes (s pat : String) : Bool := charsContains pat.data s.data

/-- Case-insensitive substring test on strings. -/
def strIncludesCI (s pat : String) : Bool := charsContainsCI pat.data s.data

/-- Consume the case-sensitive literal `pat` from the front of the input,
returning the remainder. -/
def dropLit : List Char → List Char → Option (List Char)
  | [], rest => some rest
  | _ :: _, [] => none
  | p :: ps, c :: cs => if p = c then dropLit ps cs else none

/-- Consume the case-insensitive literal `pat` from the front of the input,
returning the remainder. -/
def dropLitCI : List Char → List Char → Option (List Char)
  | [], rest => some rest
  | _ :: _, [] => none
  | p :: ps, c :: cs => if p.toLower = c.toLower then dropLitCI ps cs else none

/-- Apply the partial matcher `f` at every suffix of the input, leftmost
match first: the translation of an unanchored regex search. -/
def scanPos {α : Type} (f : List Char → Option α) : List Char → Option α
  | [] => f []
  | c :: cs =>
    match f (c :: cs) with
    | some a => some a
    | none => scanPos f cs

/-- Apply the partial matcher `f` at successive positions while the
preceding characters stay inside a `[^>]*` span: the translation of the
regex idiom `[^>]*pat`. The `fuel` argument bounds the scan by the input
length. -/
def scanInSpan {α : Type} (f : List Char → Option α) : Nat → List Char → Option α
  | 0, _ => none
  | _ + 1, [] => f []
  | fuel + 1, c :: cs =>
    match f (c :: cs) with
    | some a => some a
    | none => if c = '>' then none else scanInSpan f fuel cs

/-- Split the input at the first occurrence of the case-insensitive literal
`pat`: returns the characters before the occurrence and the remainder after
it.  Translation of a non-greedy `([\s\S]*?)pat` capture. -/
def splitAtLitCI (pat : List Char) : Nat → List Char → List Char → Option (List Char × List Char)
  | 0, _, _ => none
  | fuel + 1, acc, l =>
    match dropLitCI pat l with
    | some rest => some (acc.reverse, rest)
    | none =>
      match l with
      | [] => none
      | c :: cs => splitAtLitCI pat fuel (c :: acc) cs

/-- Numeric value of a list of decimal digit characters. -/
def natOfDigits : List Char → Nat → Nat
  | [], acc => acc
  | c :: cs, acc => natOfDigits cs (10 * acc + (c.toNat - 48))

/-- Translation of the JS `parseInt(s, 10)`: skip leading whitespace, read
an optional sign and then a maximal run of decimal digits; `none` stands
for `NaN` (no digits found). -/
def parseIntJS (s : String) : Option Int :=
  let cs := s.data.dropWhile Char.isWhitespace
  let signed : Bool × List Char :=
    match cs with
    | '-' :: t => (true, t)
    | '+' :: t => (false, t)
    | _ => (false, cs)
  let ds := signed.2.takeWhile Char.isDigit
  if ds.isEmpty then none
  else
    let v : Int := Int.ofNat (natOfDigits ds 0)
    some (if signed.1 then -v else v)

/-- Hexadecimal digit for percent-encoding (uppercase, as produced by the
JS `encodeURIComponent`). -/
def hexDigitCh (n : Nat) : Char :=
  if n < 10 then Char.ofNat (48 + n) else Char.ofNat (55 + n)

/-- Characters left unescaped by `encodeURIComponent`. -/
def isURIUnreserved (c : Char) : Bool :=
  c.isAlpha || c.isDigit || c = '-' || c = '_' || c = '.' || c = '!' ||
  c.toNat = 126 || c = '*' || c.toNat = 39 || c = '(' || c = ')'

/-- UTF-8 bytes of a code point. -/
def utf8BytesOf (n : Nat) : List Nat :=
  if n < 128 then [n]
  else if n < 2048 then [192 + n / 64, 128 + n % 64]
  else if n < 65536 then [224 + n / 4096, 128 + (n / 64) % 64, 128 + n % 64]
  else [240 + n / 262144, 128 + (n / 4096) % 64, 128 + (n / 64) % 64, 128 + n % 64]

/-- Percent-encode one byte. -/
def pctByte (b : Nat) : List Char :=
  ['%', hexDigitCh (b / 16), hexDigitCh (b % 16)]

/-- Translation of the JS `encodeURIComponent`. -/
def encodeURIComponent (s : String) : String :=
  String.mk (s.data.foldr
    (fun c acc =>
      if isURIUnreserved c then c :: acc
      else ((utf8BytesOf c.toNat).map pctByte).flatten ++ acc)
    [])

/-! ## Data model

Shapes of the JSON payloads the source reads, with `Option` marking fields
that may be absent (`undefined`) in the upstream document. -/

/-- The `data` object of one child of a Reddit listing. -/
structure ChildData where
  title : Option String := none
  score : Option Int := none
  author : Option String := none
  url : Option String := none
  permalink : Option String := none
  created_utc : Option Int := none
  num_comments : Option Int := none
deriving DecidableEq

/-- One child of a listing (`p`, accessed as `p.data`). -/
structure Child where
  data : ChildData
deriving DecidableEq

/-- The `data` object of a listing (`json.data`). -/
structure ListingData where
  children : Option (List Child) := none
deriving DecidableEq

/-- A parsed top-posts JSON document. -/
structure ListingDoc where
  data : Option ListingData := none
deriving DecidableEq

/-- The `data` object of an `about` JSON document. -/
structure AboutData where
  display_name : String := ""
  subreddit_type : Option String := none
  url : String := ""
deriving DecidableEq

/-- A parsed `about` JSON document. -/
structure AboutDoc where
  data : Option AboutData := none
deriving DecidableEq

/-- An HTTP response as seen by `fetchJson` / `fetchOAuthJson`: status,
content-type header, optional `retry-after` header, and the JSON value of
the body when the body parses as JSON (`none` models a body that fails
`res.json()`). -/
structure JsonHttp (α : Type) where
  status : Nat
  contentType : String := ""
  retryAfterH : Option String := none
  jsonBody : Option α := none
deriving DecidableEq

/-- An HTTP response as seen by `fetchText`: status, optional
`retry-after` header, and the body text. -/
structure TextHttp where
  status : Nat
  retryAfterH : Option String := none
  text : String := ""
deriving DecidableEq

/-- Outcome of one network call: the promise resolved with a response,
rejected with the timeout error raised by `fetchWithTimeout`, or rejected
with some other error carrying a message. -/
inductive NetRes (α : Type) where
  | timeout
  | jsErr (msg : String)
  | resp (r : α)
deriving DecidableEq

/-- Response of the OAuth token endpoint, reduced to the fields the source
inspects: `res.ok`, presence of `access_token`, and the status used in the
error message. -/
structure TokenResp where
  ok : Bool := false
  hasAccessToken : Bool := false
  status : Nat := 0
deriving DecidableEq

/-- A normalized post, the object literal pushed by every stage of
`fetchPosts`. `Option` fields model JS `null`/`undefined`. -/
structure Post where
  title : Option String := none
  score : Option Int := none
  author : Option String := none
  url : Option String := none
  permalink : Option String := none
  created : Option Int := none
  num_comments : Option Int := none
  source : String := ""
deriving DecidableEq

/-- The object returned by `fetchPosts`: the union of the literal shapes
returned by the source, with absent JS fields as `false`/`none`/`[]`. -/
structure FetchOutcome where
  ok : Bool := false
  posts : List Post := []
  used : Option String := none
  rateLimited : Bool := false
  retryAfter : Option Int := none
  timeout : Bool := false
deriving DecidableEq

/-! ## Throttle, timeout and fetch helpers -/

/-- `MIN_DELAY_MS` of the source. -/
def MIN_DELAY_MS : Nat := 1200

/-- The fixed fetch timeout of `fetchWithTimeout` (milliseconds). A call
whose latency exceeds this bound is modelled by `NetRes.timeout`. -/
def FETCH_TIMEOUT_MS : Nat := 10000

/-- Translation of the retry-after parsing in `fetchJson` / `fetchText` /
`fetchOAuthJson`: `parseInt(res.headers.get(..) || 0, 10) || null`.
A missing or empty header falls back to the string 0; a `NaN` or zero
parse becomes JS `null`, here `none`. -/
def retryAfterOf (h : Option String) : Option Int :=
  let s : String :=
    match h with
    | none => "0"
    | some v => if v = "" then "0" else v
  match parseIntJS s with
  | none => none
  | some n => if n = 0 then none else some n

/-- The value placed in a rate-limited outcome: `retryAfter || 30`. -/
def effectiveRetryAfter (h : Option String) : Int :=
  match retryAfterOf h with
  | some n => n
  | none => 30

/-- Result of `fetchJson` (and of the response part of `fetchOAuthJson`). -/
structure FetchJsonOut (α : Type) where
  status : Nat
  json : Option α
  retryAfter : Option Int
deriving DecidableEq

/-- Translation of `fetchJson`: the JSON body is surfaced only when the
content-type header contains "application/json"; otherwise `json` stays
`null`. -/
def fetchJsonOf {α : Type} (r : JsonHttp α) : FetchJsonOut α :=
  { status := r.status
  , json := if strIncludes r.contentType "application/json" then r.jsonBody else none
  , retryAfter := retryAfterOf r.retryAfterH }

/-! ## Cache and in-flight map -/

/-- A stored cache value: the post list and its absolute expiry time. -/
structure CacheEntry where
  data : List Post
  exp : Nat
deriving DecidableEq

/-- `Map.get`-style association-list lookup (first binding wins). -/
def lookupA {κ α : Type} [DecidableEq κ] : List (κ × α) → κ → Option α
  | [], _ => none
  | (k, v) :: t, key => if k = key then some v else lookupA t key

/-- `Map.set`: replace the binding if present, else append. -/
def setA {κ α : Type} [DecidableEq κ] : List (κ × α) → κ → α → List (κ × α)
  | [], key, v => [(key, v)]
  | (k, w) :: t, key, v => if k = key then (key, v) :: t else (k, w) :: setA t key v

/-- `Map.delete`: drop the binding for the key. -/
def eraseA {κ α : Type} [DecidableEq κ] : List (κ × α) → κ → List (κ × α)
  | [], _ => []
  | (k, w) :: t, key => if k = key then t else (k, w) :: eraseA t key

/-- The cache key of the source: lowercased canonical name, a colon, and
the timeframe. -/
def cacheKey (canonical tf : String) : String :=
  jsToLower canonical ++ ":" ++ tf

/-- `ttlFor`: five minutes for the day timeframe, sixty minutes for any
other timeframe (milliseconds). -/
def ttlFor (tf : String) : Nat :=
  if tf = "day" then 5 * 60 * 1000 else 60 * 60 * 1000

/-- `getCached`: return the stored data only while `now` is strictly
before the entry expiry. -/
def getCached (cache : List (String × CacheEntry)) (k : String) (now : Nat) :
    Option (List Post) :=
  match lookupA cache k with
  | some e => if now < e.exp then some e.data else none
  | none => none

/-! ## Response parsers -/

/-- Characters of a pattern literal. -/
def chs (s : String) : List Char := s.data

/-- Index of the first occurrence of `pat` in the input. -/
def findSubIdx (pat : List Char) : List Char → Option Nat
  | [] => if charsPrefix pat [] then some 0 else none
  | c :: cs =>
    if charsPrefix pat (c :: cs) then some 0
    else (findSubIdx pat cs).map (· + 1)

/-- Tag removal pass of `stripTags`: delete every occurrence of a tag
span with at least one character between the angle brackets. -/
def stripTagsAux : Nat → List Char → List Char
  | 0, l => l
  | _ + 1, [] => []
  | fuel + 1, c :: cs =>
    if c = '<' then
      let inner := cs.takeWhile (fun d => d ≠ '>')
      if inner.isEmpty then c :: stripTagsAux fuel cs
      else
        match cs.drop inner.length with
        | '>' :: rest => stripTagsAux fuel rest
        | _ => c :: stripTagsAux fuel cs
    else c :: stripTagsAux fuel cs

/-- Whitespace collapsing pass of `stripTags`: every maximal whitespace
run becomes one space. -/
def collapseWsAux : Bool → List Char → List Char
  | _, [] => []
  | inWs, c :: cs =>
    if c.isWhitespace then
      if inWs then collapseWsAux true cs else ' ' :: collapseWsAux true cs
    else c :: collapseWsAux false cs

/-- Translation of `stripTags`: drop tag spans, collapse whitespace,
trim. -/
def stripTags (s : String) : String :=
  jsTrim (String.mk (collapseWsAux false (stripTagsAux (s.data.length + 1) s.data)))

/-- The character after a candidate word must not be a word character
(regex `\b` at the end of a literal word). -/
def wordBoundaryAfter : List Char → Bool
  | [] => true
  | c :: _ => ! isWordChar c

/-- The character before a candidate word must not be a word character. -/
def boundaryOkBefore : Option Char → Bool
  | none => true
  | some c => ! isWordChar c

/-- Scan for a whole-word, case-insensitive occurrence of `w`, carrying
the previous character for the left boundary. -/
def containsWordAux (w : List Char) : Option Char → List Char → Bool
  | _, [] => false
  | prev, c :: cs =>
    (boundaryOkBefore prev &&
      (match dropLitCI w (c :: cs) with
       | some rest => wordBoundaryAfter rest
       | none => false)) ||
    containsWordAux w (some c) cs

/-- Whole-word case-insensitive containment (regex `\bw\b` inside a
class-attribute value). -/
def containsWordCI (w v : List Char) : Bool := containsWordAux w none v

/-- Feed probe of the RSS stage: an occurrence of an entry or item tag
opener followed by a word boundary, case-insensitively. -/
def rssFeedTestAux : List Char → Bool
  | [] => false
  | c :: cs =>
    (match dropLitCI (chs "<entry") (c :: cs) with
     | some rest => wordBoundaryAfter rest
     | none => false) ||
    (match dropLitCI (chs "<item") (c :: cs) with
     | some rest => wordBoundaryAfter rest
     | none => false) ||
    rssFeedTestAux cs

/-- Boolean form of the feed test regex applied by the RSS stage. -/
def rssFeedTest (s : String) : Bool := rssFeedTestAux s.data

/-- Collect the entry blocks: at each opener, the block runs to the first
following closer (non-greedy), and scanning resumes after the block. -/
def entriesAux : Nat → List Char → List (List Char)
  | 0, _ => []
  | _ + 1, [] => []
  | fuel + 1, c :: cs =>
    if charsPrefix (chs "<entry>") (c :: cs) then
      match findSubIdx (chs "</entry>") (c :: cs) with
      | some j =>
        (c :: cs).take (j + 8) :: entriesAux fuel ((c :: cs).drop (j + 8))
      | none => entriesAux fuel cs
    else entriesAux fuel cs

/-- The entry blocks matched by the RSS stage (`matchAll` over the entry
block regex). -/
def extractEntries (s : String) : List String :=
  (entriesAux (s.data.length + 1) s.data).map String.mk

/-- Capture of the RSS title regex: shortest span whose continuation is an
optional CDATA closer followed by the title end tag. -/
def titleCaptureAux : Nat → List Char → List Char → Option (List Char)
  | 0, _, _ => none
  | fuel + 1, acc, l =>
    if (dropLitCI (chs "]]></title>") l).isSome then some acc.reverse
    else if (dropLitCI (chs "</title>") l).isSome then some acc.reverse
    else
      match l with
      | [] => none
      | c :: cs => titleCaptureAux fuel (c :: acc) cs

/-- Anchored attempt of the RSS title regex: the open tag (with an
attribute span), an optional CDATA opener, then the capture. -/
def tryTitleAt (l : List Char) : Option (List Char) :=
  match dropLitCI (chs "<title") l with
  | none => none
  | some rest =>
    match rest.dropWhile (fun c => c ≠ '>') with
    | '>' :: body0 =>
      let body := (dropLitCI (chs "<![CDATA[") body0).getD body0
      titleCaptureAux (body.length + 1) [] body
    | _ => none

/-- Inside a link tag, locate an `href` attribute with a nonempty quoted
value, staying inside the tag span. -/
def linkHrefScan : Nat → List Char → Option (List Char)
  | 0, _ => none
  | fuel + 1, l =>
    match dropLitCI (chs "href=\"") l with
    | some rest =>
      let cap := rest.takeWhile (fun c => c ≠ '"')
      if cap.isEmpty then
        match l with
        | [] => none
        | _ :: cs => linkHrefScan fuel cs
      else
        match rest.drop cap.length with
        | '"' :: _ => some cap
        | _ =>
          match l with
          | [] => none
          | _ :: cs => linkHrefScan fuel cs
    | none =>
      match l with
      | [] => none
      | '>' :: _ => none
      | _ :: cs => linkHrefScan fuel cs

/-- Anchored attempt of the RSS link regex. -/
def tryLinkAt (l : List Char) : Option (List Char) :=
  match dropLitCI (chs "<link") l with
  | none => none
  | some rest => linkHrefScan (rest.length + 1) rest

/-- Anchored attempt of the RSS id regex: open tag, nonempty run without
an angle bracket, close tag. -/
def tryIdAt (l : List Char) : Option (List Char) :=
  match dropLitCI (chs "<id>") l with
  | none => none
  | some rest =>
    let cap := rest.takeWhile (fun c => c ≠ '<')
    if cap.isEmpty then none
    else
      match dropLitCI (chs "</id>") (rest.drop cap.length) with
      | some _ => some cap
      | none => none

/-- The post built from one RSS entry block (the map body of the RSS
stage): extract title, link and id, prefer a comments permalink, and fall
back through the JS truthiness chain for the url fields. -/
def rssPostOf (bs : String) : Post :=
  let b := bs.data
  let title := jsTrim (String.mk ((scanPos tryTitleAt b).getD []))
  let linkStr := String.mk ((scanPos tryLinkAt b).getD [])
  let idStr := String.mk ((scanPos tryIdAt b).getD [])
  let permalink : Option String :=
    if strIncludes idStr "/comments/" then some idStr
    else if strIncludes linkStr "/comments/" then some linkStr
    else none
  let u : Option String :=
    match permalink with
    | some p => some p
    | none => if linkStr = "" then none else some linkStr
  { title := some title, score := none, author := none, url := u,
    permalink := u, created := none, num_comments := none, source := "rss" }

/-- One extracted old-reddit listing row, before normalization. -/
structure HtmlMatch where
  permalink : String
  titleHtml : String
  scoreTxt : String
  commentsTxt : String
deriving DecidableEq

/-- A class attribute whose value contains the word `thing`; returns the
remainder after the closing quote. -/
def tryThingClassAt (l : List Char) : Option (List Char) :=
  match dropLitCI (chs "class=\"") l with
  | none => none
  | some rest =>
    let v := rest.takeWhile (fun c => c ≠ '"')
    match rest.drop v.length with
    | '"' :: after => if containsWordCI (chs "thing") v then some after else none
    | _ => none

/-- A `data-permalink` attribute with a nonempty quoted value. -/
def tryDataPermalinkAt (l : List Char) : Option (String × List Char) :=
  match dropLitCI (chs "data-permalink=\"") l with
  | none => none
  | some rest =>
    let v := rest.takeWhile (fun c => c ≠ '"')
    if v.isEmpty then none
    else
      match rest.drop v.length with
      | '"' :: after => some (String.mk v, after)
      | _ => none

/-- A class attribute containing the word `title`, then the rest of its
tag up to the closing angle bracket; returns the anchor body position. -/
def tryTitleClassAt (l : List Char) : Option (List Char) :=
  match dropLitCI (chs "class=\"") l with
  | none => none
  | some rest =>
    let v := rest.takeWhile (fun c => c ≠ '"')
    match rest.drop v.length with
    | '"' :: after =>
      if containsWordCI (chs "title") v then
        match after.dropWhile (fun c => c ≠ '>') with
        | '>' :: body => some body
        | _ => none
      else none
    | _ => none

/-- A class attribute starting with `score`, its tag closed, then the
score text up to the closing div. -/
def tryScoreAt (l : List Char) : Option (List Char × List Char) :=
  match dropLitCI (chs "class=\"score") l with
  | none => none
  | some rest =>
    let v := rest.takeWhile (fun c => c ≠ '"')
    match rest.drop v.length with
    | '"' :: after =>
      match after.dropWhile (fun c => c ≠ '>') with
      | '>' :: body =>
        let cap := body.takeWhile (fun c => c ≠ '<')
        match dropLitCI (chs "</div>") (body.drop cap.length) with
        | some rest2 => some (cap, rest2)
        | none => none
      | _ => none
    | _ => none

/-- The comments anchor: literal class value, tag closed, comment text up
to the closing anchor tag. -/
def tryCommentsAt (l : List Char) : Option (List Char × List Char) :=
  match dropLitCI (chs "class=\"comments\"") l with
  | none => none
  | some after =>
    match after.dropWhile (fun c => c ≠ '>') with
    | '>' :: body =>
      let cap := body.takeWhile (fun c => c ≠ '<')
      match dropLitCI (chs "</a>") (body.drop cap.length) with
      | some rest2 => some (cap, rest2)
      | none => none
    | _ => none

/-- Anchored attempt of the whole listing-row regex of
`parseTopFromOldRedditHTML`, in source order: div opener, thing class and
permalink inside the tag span, then title anchor, score div and comments
anchor reached through non-greedy gaps. Returns the extracted row and the
position after the match. -/
def tryThingAt (l : List Char) : Option (HtmlMatch × List Char) :=
  match dropLitCI (chs "<div") l with
  | none => none
  | some r1 =>
    match r1 with
    | [] => none
    | c :: cs =>
      if c = '>' then none
      else
        match scanInSpan tryThingClassAt (cs.length + 1) cs with
        | none => none
        | some afterClass =>
          match scanInSpan tryDataPermalinkAt (afterClass.length + 1) afterClass with
          | none => none
          | some (plink, r2) =>
            match scanPos tryTitleClassAt r2 with
            | none => none
            | some body =>
              match splitAtLitCI (chs "</a>") (body.length + 1) [] body with
              | none => none
              | some (titleHtml, r3) =>
                match scanPos tryScoreAt r3 with
                | none => none
                | some (scoreTxt, r4) =>
                  match scanPos tryCommentsAt r4 with
                  | none => none
                  | some (commentsTxt, r5) =>
                    some (⟨plink, String.mk titleHtml, String.mk scoreTxt,
                           String.mk commentsTxt⟩, r5)

/-- Repeated global matching of the listing-row regex. -/
def htmlMatchesAux : Nat → List Char → List HtmlMatch
  | 0, _ => []
  | _ + 1, [] => []
  | fuel + 1, c :: cs =>
    match tryThingAt (c :: cs) with
    | some (m, rest) => m :: htmlMatchesAux fuel rest
    | none => htmlMatchesAux fuel cs

/-- All listing rows of an old-reddit top page. -/
def htmlMatches (s : String) : List HtmlMatch :=
  htmlMatchesAux (s.data.length + 1) s.data

/-- The post built from one listing row (the push body of
`parseTopFromOldRedditHTML`): strip tags from the title, qualify the
permalink, keep only digits of the score and comment counts, with JS
emptiness coercion to `null`. -/
def htmlItemOf (m : HtmlMatch) : Post :=
  let scoreDigits := m.scoreTxt.data.filter Char.isDigit
  let commentDigits := m.commentsTxt.data.filter Char.isDigit
  { title := some (stripTags m.titleHtml)
  , score := if scoreDigits.isEmpty then none else some (Int.ofNat (natOfDigits scoreDigits 0))
  , author := none
  , url := some ("https://old.reddit.com" ++ m.permalink)
  , permalink := some ("https://old.reddit.com" ++ m.permalink)
  , created := none
  , num_comments := if commentDigits.isEmpty then none
                    else some (Int.ofNat (natOfDigits commentDigits 0))
  , source := "html" }

/-- Translation of `parseTopFromOldRedditHTML`: up to `mx` rows, each
normalized into a post. -/
def parseTopFromOldRedditHTML (html : String) (mx : Nat := 5) : List Post :=
  ((htmlMatches html).take mx).map htmlItemOf

/-! ## Canonical-name extraction and gating detection -/

/-- The shared tail of the open-graph and canonical-link patterns: a
reddit subreddit URL on the www or old host, capturing the subreddit
segment, which must be closed by a slash. -/
def redditSubPathAt (l : List Char) : Option (List Char) :=
  match dropLitCI (chs "https://") l with
  | none => none
  | some r3 =>
    let r4 : Option (List Char) :=
      match dropLitCI (chs "www") r3 with
      | some x => some x
      | none => dropLitCI (chs "old") r3
    match r4 with
    | none => none
    | some r5 =>
      match dropLitCI (chs ".reddit.com/r/") r5 with
      | none => none
      | some r6 =>
        let cap := r6.takeWhile (fun c => !(c = '/' || c = '"' || c.toNat = 39))
        if cap.isEmpty then none
        else
          match r6.drop cap.length with
          | '/' :: _ => some cap
          | _ => none

/-- A `content` attribute holding a reddit subreddit URL. -/
def ogContentAt (l : List Char) : Option (List Char) :=
  match dropLitCI (chs "content=") l with
  | none => none
  | some r1 =>
    match r1 with
    | q :: r2 => if isQuoteCh q then redditSubPathAt r2 else none
    | [] => none

/-- An `href` attribute holding a reddit subreddit URL. -/
def hrefRedditAt (l : List Char) : Option (List Char) :=
  match dropLitCI (chs "href=") l with
  | none => none
  | some r1 =>
    match r1 with
    | q :: r2 => if isQuoteCh q then redditSubPathAt r2 else none
    | [] => none

/-- Anchored attempt of the open-graph URL pattern of
`parseCanonicalFromHtml`. -/
def tryOgAt (l : List Char) : Option (List Char) :=
  match dropLitCI (chs "property=") l with
  | none => none
  | some r1 =>
    match r1 with
    | q1 :: r2 =>
      if isQuoteCh q1 then
        match dropLitCI (chs "og:url") r2 with
        | none => none
        | some r3 =>
          match r3 with
          | q2 :: r4 =>
            if isQuoteCh q2 then scanInSpan ogContentAt (r4.length + 1) r4 else none
          | [] => none
      else none
    | [] => none

/-- Anchored attempt of the canonical-link pattern. -/
def tryCanonLinkAt (l : List Char) : Option (List Char) :=
  match dropLitCI (chs "<link") l with
  | none => none
  | some r1 =>
    let ws := r1.takeWhile Char.isWhitespace
    if ws.isEmpty then none
    else
      match dropLitCI (chs "rel=") (r1.drop ws.length) with
      | none => none
      | some r2 =>
        match r2 with
        | q1 :: r3 =>
          if isQuoteCh q1 then
            match dropLitCI (chs "canonical") r3 with
            | none => none
            | some r4 =>
              match r4 with
              | q2 :: r5 =>
                if isQuoteCh q2 then scanInSpan hrefRedditAt (r5.length + 1) r5
                else none
              | [] => none
          else none
        | [] => none

/-- Anchored attempt of the subreddit-description attribute pattern. -/
def tryDescAt (l : List Char) : Option (List Char) :=
  let afterName : Option (List Char) :=
    match dropLitCI (chs "subreddit-description") l with
    | some x => some x
    | none => dropLitCI (chs "subredditDescription") l
  match afterName with
  | none => none
  | some r1 =>
    match r1 with
    | '=' :: q :: r2 =>
      if isQuoteCh q then
        match dropLitCI (chs "r/") r2 with
        | none => none
        | some r3 =>
          let cap := r3.takeWhile (fun c => !(c = '"' || c.toNat = 39))
          if cap.isEmpty then none
          else
            match r3.drop cap.length with
            | q2 :: _ => if isQuoteCh q2 then some cap else none
            | [] => none
      else none
    | _ => none

/-- Anchored attempt of the page-title prefix pattern. -/
def tryTitleTagAt (l : List Char) : Option (List Char) :=
  match dropLitCI (chs "<title>") l with
  | none => none
  | some r1 =>
    let r2 := r1.dropWhile Char.isWhitespace
    match dropLitCI (chs "r/") r2 with
    | none => none
    | some r3 =>
      let cap := r3.takeWhile isWordChar
      if cap.isEmpty then none else some cap

/-- Translation of `parseCanonicalFromHtml`: the four extraction patterns
in priority order, falling back to the input. -/
def parseCanonicalFromHtml (html fallback : String) : String :=
  match scanPos tryOgAt html.data with
  | some c => String.mk c
  | none =>
    match scanPos tryCanonLinkAt html.data with
    | some c => String.mk c
    | none =>
      match scanPos tryDescAt html.data with
      | some c => String.mk c
      | none =>
        match scanPos tryTitleTagAt html.data with
        | some c => String.mk c
        | none => fallback

/-- Translation of `htmlLooksProtected`: the three gating marker
substrings, case-insensitively. -/
def htmlLooksProtected (html : String) : Bool :=
  strIncludesCI html "<protected-community-modal" ||
  strIncludesCI html "This community is private" ||
  strIncludesCI html "You must be invited to visit this community"

/-! ## Resolver

`resolveSubreddit` has no exception handler, so a rejected probe call
propagates to the HTTP layer; the environment therefore supplies each
probe with a plain HTTP response, which is the only case the resolver
code itself handles. -/

/-- Responses of the four resolver probes, in probe order. -/
structure ResolveEnv where
  apiAbout : JsonHttp AboutDoc
  wwwAbout : JsonHttp AboutDoc
  h1 : TextHttp
  h2 : TextHttp
deriving DecidableEq

/-- The object returned by `resolveSubreddit` (union of its return
shapes). The JS field named after existence is `existsFlag` here, and the
JS field named `type` is `rtype`, because both words are reserved. -/
structure ResolveResult where
  existsFlag : Bool
  canonical : Option String := none
  url : Option String := none
  rtype : Option String := none
  reason : Option String := none
  httpStatus : Nat := 0
  source : Option String := none
deriving DecidableEq

/-- JS `a || dflt` on a possibly missing string: an absent or empty value
falls back. -/
def jsOrDefaultStr (o : Option String) (dflt : String) : String :=
  match o with
  | some s => if s = "" then dflt else s
  | none => dflt

/-- Input normalization of `resolveSubreddit`: trim, then strip a leading
case-insensitive `r/`. -/
def normalizeName (input : String) : String :=
  let t := jsTrim input
  match t.data with
  | c :: d :: rest => if (c = 'r' || c = 'R') && d = '/' then String.mk rest else t
  | _ => t

/-- The success result built from a well-formed `about` payload. -/
def aboutSuccess (d : AboutData) (src : String) : ResolveResult :=
  { existsFlag := true
  , canonical := some d.display_name
  , url := some ("https://www.reddit.com" ++ d.url)
  , rtype := some (jsOrDefaultStr d.subreddit_type "public")
  , httpStatus := 200
  , source := some src }

/-- The HTML fallback of the resolver: both mirrors 404 means the
subreddit does not exist; otherwise concatenate the successful bodies,
extract a canonical name and detect gating. -/
def resolveHtmlStep (env : ResolveEnv) (raw : String) : ResolveResult :=
  if env.h1.status = 404 && env.h2.status = 404 then
    { existsFlag := false, reason := some "not_found", httpStatus := 404 }
  else
    let html := (if env.h1.status = 200 then env.h1.text else "") ++ "\n" ++
                (if env.h2.status = 200 then env.h2.text else "")
    let canonical := parseCanonicalFromHtml html raw
    let gated := htmlLooksProtected html
    { existsFlag := true
    , canonical := some canonical
    , url := some ("https://www.reddit.com/r/" ++ canonical ++ "/")
    , rtype := some (if gated then "maybe_gated" else "unknown")
    , httpStatus := if gated then 403 else 200
    , source := some "html" }

/-- Translation of `resolveSubreddit`. The second component lists the
probes the call consulted, in order. -/
def resolveSubreddit (env : ResolveEnv) (input : String) :
    ResolveResult × List String :=
  let raw := normalizeName input
  let a := fetchJsonOf env.apiAbout
  match a.status, a.json.bind AboutDoc.data with
  | 200, some d => (aboutSuccess d "api.about", ["api.about"])
  | _, _ =>
    if a.status ≠ 403 then
      let b := fetchJsonOf env.wwwAbout
      match b.status, b.json.bind AboutDoc.data with
      | 200, some d => (aboutSuccess d "www.about", ["api.about", "www.about"])
      | _, _ =>
        (resolveHtmlStep env raw, ["api.about", "www.about", "html.www", "html.old"])
    else
      (resolveHtmlStep env raw, ["api.about", "html.www", "html.old"])

/-! ## Post fetcher: environment, stages and the fallback chain -/

/-- Outcomes of every upstream call a single `fetchPosts` run may make.
The client-credential state mirrors the token cache: `tokenCachedValid`
is the test of a stored unexpired token. -/
structure FetchEnv where
  credsConfigured : Bool := false
  tokenCachedValid : Bool := false
  tokenCall : NetRes TokenResp := NetRes.jsErr ""
  oauthRes : NetRes (JsonHttp ListingDoc) := NetRes.jsErr ""
  json0 : NetRes (JsonHttp ListingDoc) := NetRes.jsErr ""
  json1 : NetRes (JsonHttp ListingDoc) := NetRes.jsErr ""
  json2 : NetRes (JsonHttp ListingDoc) := NetRes.jsErr ""
  rssRes : NetRes TextHttp := NetRes.jsErr ""
  htmlRes : NetRes TextHttp := NetRes.jsErr ""
deriving DecidableEq

/-- JS template interpolation of a possibly undefined string. -/
def jsStrOf : Option String → String
  | some s => s
  | none => "undefined"

/-- The post literal built by the OAuth and plain JSON stages from one
listing child. -/
def postOfChild (src : String) (c : Child) : Post :=
  { title := c.data.title
  , score := c.data.score
  , author := c.data.author
  , url := c.data.url
  , permalink := some ("https://reddit.com" ++ jsStrOf c.data.permalink)
  , created := c.data.created_utc
  , num_comments := c.data.num_comments
  , source := src }

/-- The children reached by the optional chain over a parsed listing
document; a missing level yields the empty list (JS falsy length). -/
def childrenOf (j : Option ListingDoc) : List Child :=
  match j with
  | some d =>
    match d.data with
    | some dd => dd.children.getD []
    | none => []
  | none => []

/-- Length of the optional-chained children, the truthiness test of the
JSON stages. -/
def childrenLen (j : Option ListingDoc) : Nat := (childrenOf j).length

/-- `children.slice(0, 5).map(...)` of the JSON stages. -/
def postsOf (j : Option ListingDoc) (src : String) : List Post :=
  ((childrenOf j).take 5).map (postOfChild src)

/-- The timeout return literal of every stage handler. -/
def timeoutOut : FetchOutcome := { timeout := true }

/-- The rate-limited return literal: `retryAfter || 30`. -/
def rlOut (ra : Option Int) : FetchOutcome :=
  { rateLimited := true
  , retryAfter := some (match ra with | some n => n | none => 30) }

/-- The exhausted-chain return literal. -/
def unavailableOut : FetchOutcome := {}

/-- The endpoints contacted by the chain, in source order. -/
def tokenUrl : String := "https://www.reddit.com/api/v1/access_token"

/-- OAuth top-posts endpoint. -/
def oauthUrl (c tf : String) : String :=
  "https://oauth.reddit.com/r/" ++ c ++ "/top?t=" ++ encodeURIComponent tf ++
    "&limit=25&raw_json=1"

/-- First unauthenticated JSON endpoint. -/
def jsonUrl0 (c tf : String) : String :=
  "https://api.reddit.com/r/" ++ c ++ "/top?t=" ++ encodeURIComponent tf ++
    "&limit=25&raw_json=1"

/-- Second unauthenticated JSON endpoint. -/
def jsonUrl1 (c tf : String) : String :=
  "https://www.reddit.com/r/" ++ c ++ "/top.json?t=" ++ encodeURIComponent tf ++
    "&limit=25&raw_json=1"

/-- Third unauthenticated JSON endpoint. -/
def jsonUrl2 (c tf : String) : String :=
  "https://old.reddit.com/r/" ++ c ++ "/top.json?t=" ++ encodeURIComponent tf ++
    "&limit=25"

/-- RSS endpoint. -/
def rssUrl (c tf : String) : String :=
  "https://www.reddit.com/r/" ++ c ++ "/top/.rss?t=" ++ encodeURIComponent tf

/-- HTML listing endpoint. -/
def htmlUrl (c tf : String) : String :=
  "https://old.reddit.com/r/" ++ c ++ "/top/?t=" ++ encodeURIComponent tf

/-- Outcome of `getRedditToken` within the OAuth stage (credentials are
known to be configured there): a cached valid token is returned without a
call; otherwise the exchange call either times out, fails, or yields a
response that must be ok and carry an access token, else the function
throws the token error. -/
def tokenOutcome (env : FetchEnv) : NetRes Unit :=
  if env.tokenCachedValid then NetRes.resp ()
  else
    match env.tokenCall with
    | NetRes.timeout => NetRes.timeout
    | NetRes.jsErr m => NetRes.jsErr m
    | NetRes.resp j =>
      if j.ok && j.hasAccessToken then NetRes.resp ()
      else NetRes.jsErr ("OAuth token error " ++ toString j.status)

/-- Handling of an OAuth top-posts response: a 429 short-circuits with the
rate-limit literal, a 200 with a nonempty children list succeeds, anything
else falls through. -/
def oauthRespStep (r : JsonHttp ListingDoc) (url : String) : Option FetchOutcome :=
  let f := fetchJsonOf r
  if f.status = 429 then some (rlOut f.retryAfter)
  else if f.status = 200 ∧ 0 < childrenLen f.json then
    some { ok := true, posts := postsOf f.json "oauth", used := some url }
  else none

/-- The OAuth stage (source stage 0), with its call log: skipped entirely
without credentials; the token exchange and then the top-posts call, where
a rejection whose message contains the timeout marker aborts the chain
and any other rejection falls through to the fallbacks. -/
def oauthStageRes (env : FetchEnv) (c tf : String) :
    Option FetchOutcome × List String :=
  if env.credsConfigured then
    let lg0 : List String := if env.tokenCachedValid then [] else [tokenUrl]
    match tokenOutcome env with
    | NetRes.timeout => (some timeoutOut, lg0)
    | NetRes.jsErr m =>
      (if strIncludes m "timeout" then some timeoutOut else none, lg0)
    | NetRes.resp _ =>
      let lg := lg0 ++ [oauthUrl c tf]
      match env.oauthRes with
      | NetRes.timeout => (some timeoutOut, lg)
      | NetRes.jsErr m =>
        (if strIncludes m "timeout" then some timeoutOut else none, lg)
      | NetRes.resp r => (oauthRespStep r (oauthUrl c tf), lg)
  else (none, [])

/-- One iteration of the JSON endpoint loop (source stage 1): the catch
clause turns a timeout rejection into the chain-aborting timeout literal
and swallows every other rejection. -/
def jsonStepRes (nr : NetRes (JsonHttp ListingDoc)) (url : String) :
    Option FetchOutcome :=
  match nr with
  | NetRes.timeout => some timeoutOut
  | NetRes.jsErr m => if strIncludes m "timeout" then some timeoutOut else none
  | NetRes.resp r =>
    let f := fetchJsonOf r
    if f.status = 429 then some (rlOut f.retryAfter)
    else if f.status = 200 ∧ 0 < childrenLen f.json then
      some { ok := true, posts := postsOf f.json "json", used := some url }
    else none

/-- The RSS stage (source stage 2): a 200 whose body passes the feed probe
succeeds with the mapped entry blocks, also when that list is empty. -/
def rssStepRes (nr : NetRes TextHttp) (url : String) : Option FetchOutcome :=
  match nr with
  | NetRes.timeout => some timeoutOut
  | NetRes.jsErr m => if strIncludes m "timeout" then some timeoutOut else none
  | NetRes.resp r =>
    if r.status = 429 then some (rlOut (retryAfterOf r.retryAfterH))
    else if r.status = 200 ∧ rssFeedTest r.text then
      some { ok := true
           , posts := ((extractEntries r.text).take 5).map rssPostOf
           , used := some url }
    else none

/-- The HTML stage (source stage 3): a 200 succeeds only when the listing
parser finds at least one row. -/
def htmlStepRes (nr : NetRes TextHttp) (url : String) : Option FetchOutcome :=
  match nr with
  | NetRes.timeout => some timeoutOut
  | NetRes.jsErr m => if strIncludes m "timeout" then some timeoutOut else none
  | NetRes.resp r =>
    if r.status = 429 then some (rlOut (retryAfterOf r.retryAfterH))
    else if r.status = 200 then
      let posts := parseTopFromOldRedditHTML r.text 5
      if posts ≠ [] then some { ok := true, posts := posts, used := some url }
      else none
    else none

/-- Driver over the sequential stage conditionals: stop at the first stage
that returns, accumulating the call logs of the stages passed through;
exhaustion yields the unavailable literal. -/
def driveSteps : List (Option FetchOutcome × List String) → FetchOutcome × List String
  | [] => (unavailableOut, [])
  | (some out, lg) :: _ => (out, lg)
  | (none, lg) :: rest =>
    let p := driveSteps rest
    (p.1, lg ++ p.2)

/-- The stages of one chain run, paired with the log of calls each stage
makes when reached, in source order. -/
def stepsOf (env : FetchEnv) (c tf : String) :
    List (Option FetchOutcome × List String) :=
  [ oauthStageRes env c tf
  , (jsonStepRes env.json0 (jsonUrl0 c tf), [jsonUrl0 c tf])
  , (jsonStepRes env.json1 (jsonUrl1 c tf), [jsonUrl1 c tf])
  , (jsonStepRes env.json2 (jsonUrl2 c tf), [jsonUrl2 c tf])
  , (rssStepRes env.rssRes (rssUrl c tf), [rssUrl c tf])
  , (htmlStepRes env.htmlRes (htmlUrl c tf), [htmlUrl c tf]) ]

/-- Outcome and call log of the body of the in-flight promise of
`fetchPosts` (the fallback chain). -/
def chainCore (env : FetchEnv) (c tf : String) : FetchOutcome × List String :=
  driveSteps (stepsOf env c tf)

/-- The chain together with its cache effect. Every successful return of
the source chain calls `setCached` with the same key, posts and timeframe
immediately before returning, so the write is applied once here at the
return; non-success returns write nothing. -/
def runChain (env : FetchEnv) (c tf : String)
    (cache : List (String × CacheEntry)) (now : Nat) :
    FetchOutcome × List (String × CacheEntry) × List String :=
  let p := chainCore env c tf
  ( p.1
  , if p.1.ok then setA cache (cacheKey c tf) ⟨p.1.posts, now + ttlFor tf⟩ else cache
  , p.2 )

/-- The process-wide mutable maps of the fetcher. -/
structure FetchState where
  cache : List (String × CacheEntry) := []
  pending : List (String × FetchOutcome) := []
deriving DecidableEq

/-- Translation of `fetchPosts` as one full request from call to
settlement, with all clock reads at `now`: serve a fresh cache entry;
else join a registered in-flight operation (the map stores the value its
promise settles with); else run the chain, registering the in-flight
entry before the await and unconditionally deregistering it in the
`finally`, and re-apply the success cache write of the settlement site.
The third component is the list of upstream calls this request issued. -/
def fetchPosts (env : FetchEnv) (c tf : String) (st : FetchState) (now : Nat) :
    FetchOutcome × FetchState × List String :=
  let key := cacheKey c tf
  match getCached st.cache key now with
  | some posts => ({ ok := true, posts := posts, used := some "cache" }, st, [])
  | none =>
    match lookupA st.pending key with
    | some out => (out, st, [])
    | none =>
      let r := runChain env c tf st.cache now
      let pend1 := setA st.pending key r.1
      let cache2 :=
        if r.1.ok then setA r.2.1 key ⟨r.1.posts, now + ttlFor tf⟩ else r.2.1
      (r.1, { cache := cache2, pending := eraseA pend1 key }, r.2.2)

/-! ## Concurrent arrivals at the cache and in-flight map

The synchronous prefix of `fetchPosts` (cache probe, in-flight probe,
in-flight registration) contains no await, so under the single-threaded
event loop concurrent calls execute their prefixes atomically in some
order, all before the shared operation settles. `arrive1` is that prefix;
the in-flight map stores the value the shared promise will settle with,
and the chain cache write belongs to the later settlement. -/

/-- One arrival: cache hit, join of the registered operation, or
registration of a new operation (the boolean records that this caller
started the chain). -/
def arrive1 (env : FetchEnv) (c tf : String) (now : Nat) (st : FetchState) :
    FetchOutcome × FetchState × Bool :=
  let key := cacheKey c tf
  match getCached st.cache key now with
  | some posts => ({ ok := true, posts := posts, used := some "cache" }, st, false)
  | none =>
    match lookupA st.pending key with
    | some out => (out, st, false)
    | none =>
      let out := (chainCore env c tf).1
      (out, { st with pending := setA st.pending key out }, true)

/-- `n` concurrent arrivals for the same key, in arrival order: their
outcomes, the state after all prefixes, and how many of them started a
chain. -/
def arriveMany (env : FetchEnv) (c tf : String) (now : Nat) :
    Nat → FetchState → List FetchOutcome × FetchState × Nat
  | 0, st => ([], st, 0)
  | n + 1, st =>
    let a := arrive1 env c tf now st
    let rest := arriveMany env c tf now n a.2.1
    (a.1 :: rest.1, rest.2.1, rest.2.2 + (if a.2.2 then 1 else 0))

/-! ## The request gate (`redditThrottle`)

A gate passage has two atomic points: the read of `lastRedditCall`
together with the wait computation, and — after the optional sleep — the
write of the new timestamp, which is when the guarded upstream call
starts. Between a read and its write other callers may run, because the
sleep suspends. A trace interleaves these events; validity checks that
each start happens no earlier than the read time plus the computed wait,
that a sleep never returns early, and that event times are monotone. -/

/-- One gate event: a caller reads the timestamp, or it writes the
timestamp and starts its upstream call. -/
inductive GateEvent where
  | read (cid : Nat) (t : Nat)
  | start (cid : Nat) (t : Nat)
deriving DecidableEq

/-- Earliest possible start for a caller that read timestamp `last` at
time `t`: the wait is `last + MIN_DELAY_MS - t` and the caller sleeps
only when it is positive. -/
def minStartOf (last t : Nat) : Nat :=
  if t < last + MIN_DELAY_MS then last + MIN_DELAY_MS else t

/-- Trace validity, threading the timestamp variable, the previous event
time and the pending readers with their earliest starts. -/
def gateValidAux : Nat → Nat → List (Nat × Nat) → List GateEvent → Bool
  | _, _, _, [] => true
  | last, prevT, pend, GateEvent.read cid t :: rest =>
    decide (prevT ≤ t) && (lookupA pend cid).isNone &&
      gateValidAux last t ((cid, minStartOf last t) :: pend) rest
  | _, prevT, pend, GateEvent.start cid t :: rest =>
    decide (prevT ≤ t) &&
      (match lookupA pend cid with
       | some ms => decide (ms ≤ t) && gateValidAux t t (eraseA pend cid) rest
       | none => false)

/-- A trace of gate passages starting from an idle gate. -/
def gateValid (tr : List GateEvent) : Bool := gateValidAux 0 0 [] tr

/-- The times at which gated upstream calls start, in trace order. -/
def startTimes : List GateEvent → List Nat
  | [] => []
  | GateEvent.start _ t :: rest => t :: startTimes rest
  | GateEvent.read _ _ :: rest => startTimes rest

/-- Every two gated starts lie at least the minimum interval apart. -/
def gapsOK : List Nat → Bool
  | [] => true
  | t :: rest =>
    rest.all (fun u => decide (t + MIN_DELAY_MS ≤ u) || decide (u + MIN_DELAY_MS ≤ t)) &&
      gapsOK rest

/-- Serialized gate passages: each invocation reads only after the
previous one has started, so the read sees the previous start as `last`.
An invocation is its read time paired with its start time. -/
def seqInvocations : Nat → List (Nat × Nat) → Bool
  | _, [] => true
  | last, (r, s) :: rest =>
    decide (last ≤ r) && decide (minStartOf last r ≤ s) && seqInvocations s rest

/-! ## Concrete inputs used by counterexamples and witnesses -/

/-- A 404 JSON response. -/
def resp404 : JsonHttp ListingDoc := { status := 404 }

/-- A 404 text response. -/
def resp404T : TextHttp := { status := 404 }

/-- A 429 response whose upstream retry-after header is the string 0. -/
def c3resp : JsonHttp ListingDoc :=
  { status := 429, contentType := "application/json", retryAfterH := some "0" }

/-- Environment whose first JSON endpoint rate-limits with retry-after
0. -/
def c3env : FetchEnv := { json0 := NetRes.resp c3resp }

/-- A 200 JSON response whose listing has an empty children array. -/
def c6resp : JsonHttp ListingDoc :=
  { status := 200, contentType := "application/json"
  , jsonBody := some { data := some { children := some [] } } }

/-- Environment where the first JSON stage succeeds with zero posts and
every other stage responds 404. -/
def c6env : FetchEnv :=
  { json0 := NetRes.resp c6resp, json1 := NetRes.resp resp404
  , json2 := NetRes.resp resp404, rssRes := NetRes.resp resp404T
  , htmlRes := NetRes.resp resp404T }

/-- A 200 RSS response whose single entry block has no title, link or
id. -/
def c9rss : TextHttp := { status := 200, text := "<entry></entry>" }

/-- Environment where the JSON stages respond 404 and the RSS stage
serves the degenerate feed. -/
def c9env : FetchEnv :=
  { json0 := NetRes.resp resp404, json1 := NetRes.resp resp404
  , json2 := NetRes.resp resp404, rssRes := NetRes.resp c9rss }

/-- The post the RSS stage builds from the degenerate entry block. -/
def c9badPost : Post := { title := some "", source := "rss" }

/-- A minimal old-reddit listing row accepted by the listing-row
pattern. -/
def c9whtml : String :=
  "<div x class=\"thing\" data-permalink=\"/p\">z<a class=\"title\">T</a>" ++
  "<div class=\"score\">1</div><a class=\"comments\">2 c</a>"

/-- The `about` payload data of the resolution scenario. -/
def c8d : AboutData :=
  { display_name := "Cooking", subreddit_type := some "public", url := "/r/Cooking/" }

/-- A 200 `about` response carrying that payload with a JSON
content-type. -/
def c8about : JsonHttp AboutDoc :=
  { status := 200, contentType := "application/json"
  , jsonBody := some { data := some c8d } }

/-- Resolver environment whose first probe answers authoritatively. -/
def c8env : ResolveEnv :=
  { apiAbout := c8about, wwwAbout := { status := 500 }
  , h1 := resp404T, h2 := resp404T }

/-- A listing child with a title and a permalink. -/
def okChild : Child := ⟨{ title := some "T", permalink := some "/r/x/1" }⟩

/-- A 200 JSON response with one child. -/
def okResp : JsonHttp ListingDoc :=
  { status := 200, contentType := "application/json"
  , jsonBody := some { data := some { children := some [okChild] } } }

/-- Environment whose first JSON endpoint succeeds. -/
def okEnv : FetchEnv := { json0 := NetRes.resp okResp }

/-- A cache state holding one entry for the key of subreddit X at the
day timeframe, expiring at time 1000. -/
def stWithEntry : FetchState :=
  { cache := [(cacheKey "X" "day", ⟨[], 1000⟩)] }

/-- The two-caller interleaving of the gate in which both callers read
the idle timestamp before either starts. -/
def c5trace : List GateEvent :=
  [GateEvent.read 0 0, GateEvent.read 1 0,
   GateEvent.start 0 1200, GateEvent.start 1 1200]

/-- Environment for the timeout witness: credentials configured, no
cached token, and a token exchange that times out. -/
def c4wenv : FetchEnv :=
  { credsConfigured := true, tokenCachedValid := false
  , tokenCall := NetRes.timeout }

/-- A 200 response whose body is JSON but whose content-type is plain
text. -/
def c10resp : JsonHttp ListingDoc :=
  { status := 200, contentType := "text/plain"
  , jsonBody := some { data := some { children := some [] } } }

/-! ## Helper lemmas -/

/-- Lookup after a set finds the stored value. -/
theorem lookupA_setA_self {κ α : Type} [DecidableEq κ]
    (m : List (κ × α)) (k : κ) (v : α) : lookupA (setA m k v) k = some v := by
  induction m with
  | nil => simp [setA, lookupA]
  | cons hd tl ih =>
    obtain ⟨k1, v1⟩ := hd
    by_cases hk : k1 = k <;> simp [setA, lookupA, hk, ih]

/-- Deleting a freshly inserted binding restores a map that did not hold
the key. -/
theorem eraseA_setA_of_lookup_none {κ α : Type} [DecidableEq κ]
    (m : List (κ × α)) (k : κ) (v : α) (h : lookupA m k = none) :
    eraseA (setA m k v) k = m := by
  induction m with
  | nil => simp [setA, eraseA]
  | cons hd tl ih =>
    obtain ⟨k1, v1⟩ := hd
    by_cases hk : k1 = k
    · simp [lookupA, hk] at h
    · simp [lookupA, hk] at h
      simp [setA, eraseA, hk, ih h]

/-- The driver returns the first deciding stage, collecting the logs of
the stages it passed through. -/
theorem driveSteps_stop (pre : List (Option FetchOutcome × List String))
    (out : FetchOutcome) (lg : List String)
    (rest : List (Option FetchOutcome × List String))
    (h : ∀ p ∈ pre, p.1 = none) :
    driveSteps (pre ++ (some out, lg) :: rest) =
      (out, (pre.map Prod.snd).flatten ++ lg) := by
  induction pre with
  | nil => simp [driveSteps]
  | cons hd tl ih =>
    obtain ⟨o, l⟩ := hd
    have ho : o = none := h _ (List.mem_cons_self _ _)
    subst ho
    have ih2 := ih (fun p hp => h p (List.mem_cons_of_mem _ hp))
    simp [driveSteps, ih2]

/-- A deciding JSON-stage outcome is unmarked or marked with the stage
URL. -/
theorem jsonStepRes_used (nr : NetRes (JsonHttp ListingDoc)) (url : String)
    (out : FetchOutcome) (h : jsonStepRes nr url = some out) :
    out.used = none ∨ out.used = some url := by
  cases nr with
  | timeout =>
    simp [jsonStepRes] at h
    subst h; left; rfl
  | jsErr m =>
    by_cases hm : strIncludes m "timeout" = true <;> simp [jsonStepRes, hm] at h
    subst h; left; rfl
  | resp r =>
    simp only [jsonStepRes] at h
    split at h
    · cases h; left; rfl
    · split at h
      · cases h; right; rfl
      · cases h

/-- A deciding RSS-stage outcome is unmarked or marked with the stage
URL. -/
theorem rssStepRes_used (nr : NetRes TextHttp) (url : String)
    (out : FetchOutcome) (h : rssStepRes nr url = some out) :
    out.used = none ∨ out.used = some url := by
  cases nr with
  | timeout =>
    simp [rssStepRes] at h
    subst h; left; rfl
  | jsErr m =>
    by_cases hm : strIncludes m "timeout" = true <;> simp [rssStepRes, hm] at h
    subst h; left; rfl
  | resp r =>
    simp only [rssStepRes] at h
    split at h
    · cases h; left; rfl
    · split at h
      · cases h; right; rfl
      · cases h

/-- A deciding HTML-stage outcome is unmarked or marked with the stage
URL. -/
theorem htmlStepRes_used (nr : NetRes TextHttp) (url : String)
    (out : FetchOutcome) (h : htmlStepRes nr url = some out) :
    out.used = none ∨ out.used = some url := by
  cases nr with
  | timeout =>
    simp [htmlStepRes] at h
    subst h; left; rfl
  | jsErr m =>
    by_cases hm : strIncludes m "timeout" = true <;> simp [htmlStepRes, hm] at h
    subst h; left; rfl
  | resp r =>
    simp only [htmlStepRes] at h
    split at h
    · cases h; left; rfl
    · split at h
      · split at h
        · cases h; right; rfl
        · cases h
      · cases h

/-- A deciding OAuth-response outcome is unmarked or marked with the
given URL. -/
theorem oauthRespStep_used (r : JsonHttp ListingDoc) (url : String)
    (out : FetchOutcome) (h : oauthRespStep r url = some out) :
    out.used = none ∨ out.used = some url := by
  simp only [oauthRespStep] at h
  split at h
  · cases h; left; rfl
  · split at h
    · cases h; right; rfl
    · cases h

/-- A deciding OAuth-stage outcome is unmarked or marked with the OAuth
URL. -/
theorem oauthStageRes_used (env : FetchEnv) (c tf : String)
    (out : FetchOutcome) (lg : List String)
    (h : oauthStageRes env c tf = (some out, lg)) :
    out.used = none ∨ out.used = some (oauthUrl c tf) := by
  by_cases hcfg : env.credsConfigured = true
  · simp only [oauthStageRes, hcfg, if_pos] at h
    cases hto : tokenOutcome env with
    | timeout =>
      rw [hto] at h
      cases h; left; rfl
    | jsErr m =>
      rw [hto] at h
      by_cases hm : strIncludes m "timeout" = true <;> simp [hm] at h
      obtain ⟨h1, _⟩ := h
      subst h1; left; rfl
    | resp u =>
      rw [hto] at h
      cases ho : env.oauthRes with
      | timeout => rw [ho] at h; cases h; left; rfl
      | jsErr m =>
        rw [ho] at h
        by_cases hm : strIncludes m "timeout" = true <;> simp [hm] at h
        obtain ⟨h1, _⟩ := h
        subst h1; left; rfl
      | resp r =>
        rw [ho] at h
        simp only [Prod.mk.injEq] at h
        exact oauthRespStep_used r (oauthUrl c tf) out h.1
  · simp only [oauthStageRes, hcfg] at h
    simp at h

/-- A string of length other than five differs from the cache marker. -/
theorem ne_cache_of_length {s : String} (h : s.length ≠ 5) : s ≠ "cache" := by
  intro e
  rw [e] at h
  exact h rfl

/-- The OAuth endpoint is not the cache marker. -/
theorem oauthUrl_ne_cache (c tf : String) : oauthUrl c tf ≠ "cache" := by
  apply ne_cache_of_length
  simp only [oauthUrl, String.length_append]
  rw [show ("https://oauth.reddit.com/r/" : String).length = 27 from rfl]
  omega

/-- The first JSON endpoint is not the cache marker. -/
theorem jsonUrl0_ne_cache (c tf : String) : jsonUrl0 c tf ≠ "cache" := by
  apply ne_cache_of_length
  simp only [jsonUrl0, String.length_append]
  rw [show ("https://api.reddit.com/r/" : String).length = 25 from rfl]
  omega

/-- The second JSON endpoint is not the cache marker. -/
theorem jsonUrl1_ne_cache (c tf : String) : jsonUrl1 c tf ≠ "cache" := by
  apply ne_cache_of_length
  simp only [jsonUrl1, String.length_append]
  rw [show ("https://www.reddit.com/r/" : String).length = 25 from rfl]
  omega

/-- The third JSON endpoint is not the cache marker. -/
theorem jsonUrl2_ne_cache (c tf : String) : jsonUrl2 c tf ≠ "cache" := by
  apply ne_cache_of_length
  simp only [jsonUrl2, String.length_append]
  rw [show ("https://old.reddit.com/r/" : String).length = 25 from rfl]
  omega

/-- The RSS endpoint is not the cache marker. -/
theorem rssUrl_ne_cache (c tf : String) : rssUrl c tf ≠ "cache" := by
  apply ne_cache_of_length
  simp only [rssUrl, String.length_append]
  rw [show ("https://www.reddit.com/r/" : String).length = 25 from rfl]
  omega

/-- The HTML endpoint is not the cache marker. -/
theorem htmlUrl_ne_cache (c tf : String) : htmlUrl c tf ≠ "cache" := by
  apply ne_cache_of_length
  simp only [htmlUrl, String.length_append]
  rw [show ("https://old.reddit.com/r/" : String).length = 25 from rfl]
  omega

/-- The driver never marks its result as served from the cache when no
stage can. -/
theorem driveSteps_used_ne (steps : List (Option FetchOutcome × List String))
    (h : ∀ p ∈ steps, ∀ out, p.1 = some out → out.used ≠ some "cache") :
    (driveSteps steps).1.used ≠ some "cache" := by
  induction steps with
  | nil => simp [driveSteps, unavailableOut]
  | cons hd tl ih =>
    obtain ⟨o, lg⟩ := hd
    cases o with
    | some out =>
      simpa [driveSteps] using h _ (List.mem_cons_self _ _) out rfl
    | none =>
      simp only [driveSteps]
      exact ih (fun p hp out ho => h p (List.mem_cons_of_mem _ hp) out ho)

/-- No chain outcome is marked as served from the cache. -/
theorem chainCore_used_ne_cache (env : FetchEnv) (c tf : String) :
    (chainCore env c tf).1.used ≠ some "cache" := by
  apply driveSteps_used_ne
  intro p hp out ho
  simp only [stepsOf, List.mem_cons, List.not_mem_nil, or_false] at hp
  rcases hp with h | h | h | h | h | h
  · rcases oauthStageRes_used env c tf out _ (by rw [← h, ← ho]) with hu | hu
    · simp [hu]
    · rw [hu]
      simp [oauthUrl_ne_cache c tf]
  · subst h
    rcases jsonStepRes_used _ _ out ho with hu | hu
    · simp [hu]
    · rw [hu]
      simp [jsonUrl0_ne_cache c tf]
  · subst h
    rcases jsonStepRes_used _ _ out ho with hu | hu
    · simp [hu]
    · rw [hu]
      simp [jsonUrl1_ne_cache c tf]
  · subst h
    rcases jsonStepRes_used _ _ out ho with hu | hu
    · simp [hu]
    · rw [hu]
      simp [jsonUrl2_ne_cache c tf]
  · subst h
    rcases rssStepRes_used _ _ out ho with hu | hu
    · simp [hu]
    · rw [hu]
      simp [rssUrl_ne_cache c tf]
  · subst h
    rcases htmlStepRes_used _ _ out ho with hu | hu
    · simp [hu]
    · rw [hu]
      simp [htmlUrl_ne_cache c tf]

/-- An OAuth stage that runs at all issues at least one call. -/
theorem oauthStageRes_log_ne_nil (env : FetchEnv) (c tf : String)
    (hcfg : env.credsConfigured = true) : (oauthStageRes env c tf).2 ≠ [] := by
  by_cases hv : env.tokenCachedValid = true
  · have hto : tokenOutcome env = NetRes.resp () := by simp [tokenOutcome, hv]
    simp only [oauthStageRes, hcfg, hto, hv, if_true]
    cases env.oauthRes <;> simp
  · simp only [oauthStageRes, hcfg, hv, if_true, Bool.false_eq_true, if_false]
    cases tokenOutcome env
    · simp
    · simp
    · cases env.oauthRes <;> simp

/-- A deciding OAuth stage has issued at least one call. -/
theorem oauthStageRes_some_log_ne_nil (env : FetchEnv) (c tf : String)
    (out : FetchOutcome) (lg : List String)
    (h : oauthStageRes env c tf = (some out, lg)) : lg ≠ [] := by
  by_cases hcfg : env.credsConfigured = true
  · have h2 := oauthStageRes_log_ne_nil env c tf hcfg
    rw [h] at h2
    exact h2
  · simp only [oauthStageRes, hcfg] at h
    simp at h

/-- A driver whose second-position log is a nonempty call list yields a
nonempty log. -/
theorem driveSteps_cons_log_ne_nil (s : Option FetchOutcome) (u : String)
    (us : List String) (rest : List (Option FetchOutcome × List String)) :
    (driveSteps ((s, u :: us) :: rest)).2 ≠ [] := by
  cases s <;> simp [driveSteps]

/-- Every chain run issues at least one upstream call. -/
theorem chainCore_log_ne_nil (env : FetchEnv) (c tf : String) :
    (chainCore env c tf).2 ≠ [] := by
  unfold chainCore stepsOf
  rcases h0 : oauthStageRes env c tf with ⟨o0, lg0⟩
  cases o0 with
  | some out =>
    simpa [driveSteps] using oauthStageRes_some_log_ne_nil env c tf out lg0 h0
  | none =>
    simp only [driveSteps]
    have h2 := driveSteps_cons_log_ne_nil (jsonStepRes env.json0 (jsonUrl0 c tf))
      (jsonUrl0 c tf) []
      [ (jsonStepRes env.json1 (jsonUrl1 c tf), [jsonUrl1 c tf])
      , (jsonStepRes env.json2 (jsonUrl2 c tf), [jsonUrl2 c tf])
      , (rssStepRes env.rssRes (rssUrl c tf), [rssUrl c tf])
      , (htmlStepRes env.htmlRes (htmlUrl c tf), [htmlUrl c tf]) ]
    simp only [ne_eq, List.append_eq_nil]
    intro hc
    exact h2 hc.2

/-- On a cache miss with no in-flight entry, the returned outcome is the
chain outcome. -/
theorem fetchPosts_miss_fst (env : FetchEnv) (c tf : String) (st : FetchState)
    (now : Nat) (hgc : getCached st.cache (cacheKey c tf) now = none)
    (hp : lookupA st.pending (cacheKey c tf) = none) :
    (fetchPosts env c tf st now).1 = (chainCore env c tf).1 := by
  simp [fetchPosts, runChain, hgc, hp]

/-- On a cache miss with no in-flight entry, the issued calls are the
chain calls. -/
theorem fetchPosts_miss_log (env : FetchEnv) (c tf : String) (st : FetchState)
    (now : Nat) (hgc : getCached st.cache (cacheKey c tf) now = none)
    (hp : lookupA st.pending (cacheKey c tf) = none) :
    (fetchPosts env c tf st now).2.2 = (chainCore env c tf).2 := by
  simp [fetchPosts, runChain, hgc, hp]

/-- On a cache miss with no in-flight entry and a successful chain, the
final cache holds the chain posts with the timeframe TTL. -/
theorem fetchPosts_miss_cache_ok (env : FetchEnv) (c tf : String)
    (st : FetchState) (now : Nat)
    (hgc : getCached st.cache (cacheKey c tf) now = none)
    (hp : lookupA st.pending (cacheKey c tf) = none)
    (hok : (chainCore env c tf).1.ok = true) :
    lookupA (fetchPosts env c tf st now).2.1.cache (cacheKey c tf) =
      some ⟨(chainCore env c tf).1.posts, now + ttlFor tf⟩ := by
  simp [fetchPosts, runChain, hgc, hp, hok, lookupA_setA_self]

/-- C7: for every cache key and every outcome of the shared fetch
operation — success or failure — the in-flight entry registered by
`fetchPosts` is removed when the operation settles, so a settled fetch
never leaves its key in the in-flight map and a later call with the same
key can start a fresh attempt. -/
theorem claim_c7_pending_cleared (env : FetchEnv) (c tf : String)
    (st : FetchState) (now : Nat)
    (hp : lookupA st.pending (cacheKey c tf) = none) :
    lookupA (fetchPosts env c tf st now).2.1.pending (cacheKey c tf) = none := by
  rcases hgc : getCached st.cache (cacheKey c tf) now with _ | posts
  · simp only [fetchPosts, hgc, hp]
    simp only [eraseA_setA_of_lookup_none _ _ _ hp]
    exact hp
  · simp only [fetchPosts, hgc]
    exact hp

/-- Witness for C7 at a concrete environment and state. -/
theorem claim_c7_pending_cleared_witness :
    lookupA (fetchPosts okEnv "X" "day" ⟨[], []⟩ 0).2.1.pending
      (cacheKey "X" "day") = none :=
  claim_c7_pending_cleared okEnv "X" "day" ⟨[], []⟩ 0 rfl

/-- A cache-missing, pending-missing arrival registers the chain outcome
and owns the chain. -/
theorem arrive1_owner (env : FetchEnv) (c tf : String) (now : Nat)
    (st : FetchState)
    (hc : getCached st.cache (cacheKey c tf) now = none)
    (hp : lookupA st.pending (cacheKey c tf) = none) :
    arrive1 env c tf now st =
      ((chainCore env c tf).1,
       { st with pending := setA st.pending (cacheKey c tf) (chainCore env c tf).1 },
       true) := by
  simp [arrive1, hc, hp]

/-- A cache-missing arrival that finds a registered operation joins it. -/
theorem arrive1_joiner (env : FetchEnv) (c tf : String) (now : Nat)
    (st : FetchState) (out : FetchOutcome)
    (hc : getCached st.cache (cacheKey c tf) now = none)
    (hp : lookupA st.pending (cacheKey c tf) = some out) :
    arrive1 env c tf now st = (out, st, false) := by
  simp [arrive1, hc, hp]

/-- After an operation is registered, all further arrivals join it, start
no chain, and leave the state unchanged. -/
theorem arriveMany_joined (env : FetchEnv) (c tf : String) (now : Nat)
    (n : Nat) (st : FetchState) (out : FetchOutcome)
    (hc : getCached st.cache (cacheKey c tf) now = none)
    (hp : lookupA st.pending (cacheKey c tf) = some out) :
    arriveMany env c tf now n st = (List.replicate n out, st, 0) := by
  induction n with
  | zero => simp [arriveMany]
  | succ n ih =>
    simp [arriveMany, arrive1_joiner env c tf now st out hc hp, ih,
      List.replicate_succ]

/-- C1: when concurrent `fetchPosts` calls share a cache key, find no
fresh cache entry and no prior in-flight entry, exactly one of them
executes the upstream fallback chain and every one of them receives the
identical chain outcome (the shared post list, or the shared failure). -/
theorem claim_c1_dedup_single_flight (env : FetchEnv) (c tf : String)
    (now : Nat) (st : FetchState) (n : Nat)
    (hc : getCached st.cache (cacheKey c tf) now = none)
    (hp : lookupA st.pending (cacheKey c tf) = none)
    (hn : 1 ≤ n) :
    (arriveMany env c tf now n st).2.2 = 1 ∧
      ∀ o ∈ (arriveMany env c tf now n st).1, o = (chainCore env c tf).1 := by
  obtain ⟨m, rfl⟩ : ∃ m, n = m + 1 := ⟨n - 1, by omega⟩
  have h1 := arrive1_owner env c tf now st hc hp
  have hp2 : lookupA (setA st.pending (cacheKey c tf) (chainCore env c tf).1)
      (cacheKey c tf) = some (chainCore env c tf).1 :=
    lookupA_setA_self st.pending (cacheKey c tf) (chainCore env c tf).1
  have h2 := arriveMany_joined env c tf now m
    { st with pending := setA st.pending (cacheKey c tf) (chainCore env c tf).1 }
    (chainCore env c tf).1 hc hp2
  constructor
  · simp [arriveMany, h1, h2]
  · intro o ho
    simp only [arriveMany, h1, h2, List.mem_cons] at ho
    rcases ho with rfl | ho
    · rfl
    · exact (List.eq_of_mem_replicate ho)

/-- Witness for C1: three concurrent arrivals at an empty state. -/
theorem claim_c1_dedup_single_flight_witness :
    (arriveMany okEnv "X" "day" 50 3 ⟨[], []⟩).2.2 = 1 ∧
      ∀ o ∈ (arriveMany okEnv "X" "day" 50 3 ⟨[], []⟩).1,
        o = (chainCore okEnv "X" "day").1 :=
  claim_c1_dedup_single_flight okEnv "X" "day" 50 ⟨[], []⟩ 3 rfl rfl (by omega)

/-- C10: `fetchJson` surfaces a parsed payload exactly when the response
content-type contains the JSON marker, and a 200 whose body is JSON but
whose content-type is not marked as JSON makes the JSON stage fall
through to the next stage. -/
theorem claim_c10_content_type_gate :
    (∀ (α : Type) (r : JsonHttp α) (v : α),
       (fetchJsonOf r).json = some v ↔
         (strIncludes r.contentType "application/json" = true ∧
          r.jsonBody = some v)) ∧
    (∀ (r : JsonHttp ListingDoc) (url : String), r.status = 200 →
       strIncludes r.contentType "application/json" = false →
       jsonStepRes (NetRes.resp r) url = none) := by
  constructor
  · intro α r v
    by_cases hct : strIncludes r.contentType "application/json" = true <;>
      simp [fetchJsonOf, hct]
  · intro r url hs hct
    simp [jsonStepRes, fetchJsonOf, hct, hs, childrenLen, childrenOf]

/-- Witness for C10: a 200 response with a JSON body but a plain-text
content-type is not surfaced and the stage advances. -/
theorem claim_c10_content_type_gate_witness :
    jsonStepRes (NetRes.resp c10resp) "u" = none :=
  claim_c10_content_type_gate.2 c10resp "u" rfl (by decide)

/-- C8: a 200 on the unauthenticated about probe with a well-formed
payload resolves immediately: exists, the upstream display name as the
canonical name, the upstream subreddit type, and no later probe is
consulted. -/
theorem claim_c8_about_probe (env : ResolveEnv) (d : AboutData)
    (hs : env.apiAbout.status = 200)
    (hct : strIncludes env.apiAbout.contentType "application/json" = true)
    (hb : env.apiAbout.jsonBody = some { data := some d })
    (hdn : d.display_name = "Cooking")
    (hty : d.subreddit_type = some "public") :
    resolveSubreddit env "cooking" = (aboutSuccess d "api.about", ["api.about"]) ∧
      (aboutSuccess d "api.about").existsFlag = true ∧
      (aboutSuccess d "api.about").canonical = some "Cooking" ∧
      (aboutSuccess d "api.about").rtype = some "public" := by
  refine ⟨?_, rfl, by simp [aboutSuccess, hdn],
    by simp [aboutSuccess, hty, jsOrDefaultStr]⟩
  simp [resolveSubreddit, fetchJsonOf, hs, hct, hb]

/-- Witness for C8 at the concrete resolver environment. -/
theorem claim_c8_about_probe_witness :
    resolveSubreddit c8env "cooking" =
      (aboutSuccess c8d "api.about", ["api.about"]) ∧
      (aboutSuccess c8d "api.about").existsFlag = true ∧
      (aboutSuccess c8d "api.about").canonical = some "Cooking" ∧
      (aboutSuccess c8d "api.about").rtype = some "public" :=
  claim_c8_about_probe c8env c8d rfl (by decide) rfl rfl rfl

/-- C2: with a stored entry for the key and no in-flight operation,
`fetchPosts` returns the stored entry with no upstream call exactly when
the clock is strictly before the entry expiry; an expired entry is never
served and forces upstream calls; and an entry written on success at time
`now` expires five minutes later for the day timeframe and sixty minutes
later otherwise. -/
theorem claim_c2_cache_ttl (env : FetchEnv) (c tf : String) (st : FetchState)
    (now : Nat) (e : CacheEntry)
    (he : lookupA st.cache (cacheKey c tf) = some e)
    (hp : lookupA st.pending (cacheKey c tf) = none) :
    (now < e.exp →
       fetchPosts env c tf st now =
         ({ ok := true, posts := e.data, used := some "cache" }, st, [])) ∧
    (¬ now < e.exp →
       (fetchPosts env c tf st now).1.used ≠ some "cache" ∧
       (fetchPosts env c tf st now).2.2 ≠ []) ∧
    (((fetchPosts env c tf st now).1.used = some "cache" ∧
        (fetchPosts env c tf st now).2.2 = []) ↔ now < e.exp) ∧
    (¬ now < e.exp → (fetchPosts env c tf st now).1.ok = true →
       lookupA (fetchPosts env c tf st now).2.1.cache (cacheKey c tf) =
         some ⟨(fetchPosts env c tf st now).1.posts,
           now + (if tf = "day" then 5 * 60 * 1000 else 60 * 60 * 1000)⟩) := by
  by_cases hfresh : now < e.exp
  · have hgc : getCached st.cache (cacheKey c tf) now = some e.data := by
      simp [getCached, he, hfresh]
    have hF : fetchPosts env c tf st now =
        ({ ok := true, posts := e.data, used := some "cache" }, st, []) := by
      simp [fetchPosts, hgc]
    refine ⟨fun _ => hF, fun h => absurd hfresh h, ?_, fun h => absurd hfresh h⟩
    exact ⟨fun _ => hfresh, fun _ => by rw [hF]; exact ⟨rfl, rfl⟩⟩
  · have hgc : getCached st.cache (cacheKey c tf) now = none := by
      simp [getCached, he, hfresh]
    have hu : (fetchPosts env c tf st now).1.used ≠ some "cache" := by
      rw [fetchPosts_miss_fst env c tf st now hgc hp]
      exact chainCore_used_ne_cache env c tf
    have hl : (fetchPosts env c tf st now).2.2 ≠ [] := by
      rw [fetchPosts_miss_log env c tf st now hgc hp]
      exact chainCore_log_ne_nil env c tf
    refine ⟨fun h => absurd h hfresh, fun _ => ⟨hu, hl⟩,
      ⟨fun hcl => absurd hcl.1 hu, fun h => absurd h hfresh⟩, ?_⟩
    intro _ hok
    rw [fetchPosts_miss_fst env c tf st now hgc hp] at hok
    have h2 := fetchPosts_miss_cache_ok env c tf st now hgc hp hok
    rw [fetchPosts_miss_fst env c tf st now hgc hp]
    simpa [ttlFor] using h2

/-- Witness for C2 at a state holding an entry that is fresh at the
chosen clock. -/
theorem claim_c2_cache_ttl_witness :
    (500 < (⟨[], 1000⟩ : CacheEntry).exp →
       fetchPosts okEnv "X" "day" stWithEntry 500 =
         ({ ok := true, posts := (⟨[], 1000⟩ : CacheEntry).data
          , used := some "cache" }, stWithEntry, [])) ∧
    (¬ 500 < (⟨[], 1000⟩ : CacheEntry).exp →
       (fetchPosts okEnv "X" "day" stWithEntry 500).1.used ≠ some "cache" ∧
       (fetchPosts okEnv "X" "day" stWithEntry 500).2.2 ≠ []) ∧
    (((fetchPosts okEnv "X" "day" stWithEntry 500).1.used = some "cache" ∧
        (fetchPosts okEnv "X" "day" stWithEntry 500).2.2 = []) ↔
      500 < (⟨[], 1000⟩ : CacheEntry).exp) ∧
    (¬ 500 < (⟨[], 1000⟩ : CacheEntry).exp →
       (fetchPosts okEnv "X" "day" stWithEntry 500).1.ok = true →
       lookupA (fetchPosts okEnv "X" "day" stWithEntry 500).2.1.cache
           (cacheKey "X" "day") =
         some ⟨(fetchPosts okEnv "X" "day" stWithEntry 500).1.posts,
           500 + (if "day" = "day" then 5 * 60 * 1000 else 60 * 60 * 1000)⟩) :=
  claim_c2_cache_ttl okEnv "X" "day" stWithEntry 500 ⟨[], 1000⟩
    (by simp [stWithEntry, lookupA]) rfl

/-- C4: a timeout on any single upstream call — a JSON endpoint, the RSS
or HTML fetch, the token exchange, or the OAuth listing call — makes the
reached stage return the timeout failure at once; the driver then
returns that failure without evaluating any later stage; and on a cache
and in-flight miss `fetchPosts` returns the chain outcome unchanged. -/
theorem claim_c4_timeout_shortcircuit :
    (∀ url, jsonStepRes NetRes.timeout url = some timeoutOut) ∧
    (∀ m url, strIncludes m "timeout" = true →
       jsonStepRes (NetRes.jsErr m) url = some timeoutOut) ∧
    (∀ url, rssStepRes NetRes.timeout url = some timeoutOut) ∧
    (∀ url, htmlStepRes NetRes.timeout url = some timeoutOut) ∧
    (∀ (env : FetchEnv) (c tf : String), env.credsConfigured = true →
       env.tokenCachedValid = false → env.tokenCall = NetRes.timeout →
       (oauthStageRes env c tf).1 = some timeoutOut) ∧
    (∀ (env : FetchEnv) (c tf : String), env.credsConfigured = true →
       tokenOutcome env = NetRes.resp () → env.oauthRes = NetRes.timeout →
       (oauthStageRes env c tf).1 = some timeoutOut) ∧
    (timeoutOut = { ok := false, posts := [], used := none,
                    rateLimited := false, retryAfter := none, timeout := true }) ∧
    (∀ (pre : List (Option FetchOutcome × List String)) (out : FetchOutcome)
       (lg : List String) (rest : List (Option FetchOutcome × List String)),
       (∀ p ∈ pre, p.1 = none) →
       driveSteps (pre ++ (some out, lg) :: rest) =
         (out, (pre.map Prod.snd).flatten ++ lg)) ∧
    (∀ (env : FetchEnv) (c tf : String) (st : FetchState) (now : Nat),
       getCached st.cache (cacheKey c tf) now = none →
       lookupA st.pending (cacheKey c tf) = none →
       (fetchPosts env c tf st now).1 = (chainCore env c tf).1) := by
  refine ⟨fun url => rfl, ?_, fun url => rfl, fun url => rfl, ?_, ?_, rfl,
    driveSteps_stop, fetchPosts_miss_fst⟩
  · intro m url hm
    simp [jsonStepRes, hm]
  · intro env c tf hcfg hv ht
    simp [oauthStageRes, hcfg, tokenOutcome, hv, ht]
  · intro env c tf hcfg hto ho
    simp [oauthStageRes, hcfg, hto, ho]

/-- Witness for C4: a timing-out first JSON endpoint, a timing-out token
exchange, and the driver stopping at a deciding stage. -/
theorem claim_c4_timeout_shortcircuit_witness :
    jsonStepRes NetRes.timeout "u" = some timeoutOut ∧
    jsonStepRes (NetRes.jsErr "timeout") "u" = some timeoutOut ∧
    (oauthStageRes c4wenv "x" "day").1 = some timeoutOut ∧
    driveSteps ([((none : Option FetchOutcome), ["a"])] ++
        (some timeoutOut, ["b"]) :: []) =
      (timeoutOut,
       ([((none : Option FetchOutcome), ["a"])].map Prod.snd).flatten ++ ["b"]) ∧
    (fetchPosts c4wenv "x" "day" ⟨[], []⟩ 0).1 = (chainCore c4wenv "x" "day").1 :=
  ⟨claim_c4_timeout_shortcircuit.1 "u",
   claim_c4_timeout_shortcircuit.2.1 "timeout" "u" (by decide),
   claim_c4_timeout_shortcircuit.2.2.2.2.1 c4wenv "x" "day" rfl rfl rfl,
   claim_c4_timeout_shortcircuit.2.2.2.2.2.2.2.1
     [((none : Option FetchOutcome), ["a"])] timeoutOut ["b"] [] (by simp),
   claim_c4_timeout_shortcircuit.2.2.2.2.2.2.2.2 c4wenv "x" "day" ⟨[], []⟩ 0 rfl rfl⟩

/-- Counterexample to C3 as stated: the upstream supplies the header
value 0, yet the returned rate-limited failure carries 30 rather than the
upstream-supplied value, because the source coerces a zero parse to the
default. -/
theorem claim_c3_counterexample :
    c3resp.retryAfterH = some "0" ∧ parseIntJS "0" = some 0 ∧
    (fetchPosts c3env "x" "day" ⟨[], []⟩ 0).1.rateLimited = true ∧
    (fetchPosts c3env "x" "day" ⟨[], []⟩ 0).1.retryAfter = some 30 ∧
    some (30 : Int) ≠ some (0 : Int) := by
  refine ⟨rfl, rfl, rfl, rfl, by decide⟩

/-- C3 amended: a 429 at any reached stage returns the rate-limited
failure at once, the driver stops there without touching later stages,
and the carried value is the parsed Retry-After header when that parse
is a nonzero integer, and 30 seconds when the header is absent, empty,
non-numeric, or parses to zero. -/
theorem claim_c3_rate_limit_amended :
    (∀ (r : JsonHttp ListingDoc) (url : String), r.status = 429 →
       oauthRespStep r url = some (rlOut (retryAfterOf r.retryAfterH))) ∧
    (∀ (r : JsonHttp ListingDoc) (url : String), r.status = 429 →
       jsonStepRes (NetRes.resp r) url = some (rlOut (retryAfterOf r.retryAfterH))) ∧
    (∀ (r : TextHttp) (url : String), r.status = 429 →
       rssStepRes (NetRes.resp r) url = some (rlOut (retryAfterOf r.retryAfterH))) ∧
    (∀ (r : TextHttp) (url : String), r.status = 429 →
       htmlStepRes (NetRes.resp r) url = some (rlOut (retryAfterOf r.retryAfterH))) ∧
    (∀ h, rlOut (retryAfterOf h) =
       { ok := false, posts := [], used := none, rateLimited := true,
         retryAfter := some (effectiveRetryAfter h), timeout := false }) ∧
    (effectiveRetryAfter none = 30) ∧
    (∀ (s : String) (n : Int), parseIntJS s = some n → n ≠ 0 →
       effectiveRetryAfter (some s) = n) ∧
    (∀ s : String, parseIntJS s = none → effectiveRetryAfter (some s) = 30) ∧
    (∀ s : String, parseIntJS s = some 0 → effectiveRetryAfter (some s) = 30) ∧
    (∀ (pre : List (Option FetchOutcome × List String)) (out : FetchOutcome)
       (lg : List String) (rest : List (Option FetchOutcome × List String)),
       (∀ p ∈ pre, p.1 = none) →
       driveSteps (pre ++ (some out, lg) :: rest) =
         (out, (pre.map Prod.snd).flatten ++ lg)) := by
  refine ⟨?_, ?_, ?_, ?_, fun h => rfl, rfl, ?_, ?_, ?_, driveSteps_stop⟩
  · intro r url hs
    simp [oauthRespStep, fetchJsonOf, hs]
  · intro r url hs
    simp [jsonStepRes, fetchJsonOf, hs]
  · intro r url hs
    simp [rssStepRes, hs]
  · intro r url hs
    simp [htmlStepRes, hs]
  · intro s n hparse hn
    by_cases hse : s = ""
    · rw [hse] at hparse
      simp [show parseIntJS "" = none from rfl] at hparse
    · simp [effectiveRetryAfter, retryAfterOf, hse, hparse, hn]
  · intro s hparse
    by_cases hse : s = ""
    · rw [hse]
      rfl
    · simp [effectiveRetryAfter, retryAfterOf, hse, hparse]
  · intro s hparse
    by_cases hse : s = ""
    · rw [hse] at hparse
      simp [show parseIntJS "" = none from rfl] at hparse
    · simp [effectiveRetryAfter, retryAfterOf, hse, hparse]

/-- Witness for the C3 amendment: a nonzero header is carried verbatim, a
zero header falls back to 30, and a 429 on the first JSON endpoint
decides the stage. -/
theorem claim_c3_rate_limit_amended_witness :
    effectiveRetryAfter (some "45") = 45 ∧
    effectiveRetryAfter (some "0") = 30 ∧
    effectiveRetryAfter none = 30 ∧
    jsonStepRes (NetRes.resp c3resp) "u" =
      some (rlOut (retryAfterOf c3resp.retryAfterH)) ∧
    driveSteps ([((none : Option FetchOutcome), ["a"])] ++
        (some (rlOut none), ["b"]) :: []) =
      (rlOut none,
       ([((none : Option FetchOutcome), ["a"])].map Prod.snd).flatten ++ ["b"]) :=
  ⟨claim_c3_rate_limit_amended.2.2.2.2.2.2.1 "45" 45 rfl (by decide),
   claim_c3_rate_limit_amended.2.2.2.2.2.2.2.2.1 "0" rfl,
   claim_c3_rate_limit_amended.2.2.2.2.2.1,
   claim_c3_rate_limit_amended.2.1 c3resp "u" rfl,
   claim_c3_rate_limit_amended.2.2.2.2.2.2.2.2.2
     [((none : Option FetchOutcome), ["a"])] (rlOut none) ["b"] [] (by simp)⟩

/-- Counterexample to C6 as stated: the first JSON stage responds 200
with a well-formed listing holding zero posts, yet `fetchPosts` does not
return a success carrying the empty list — the stage is skipped and,
with every later stage missing, the call returns the unavailable failure. -/
theorem claim_c6_counterexample :
    c6resp.status = 200 ∧ childrenOf (fetchJsonOf c6resp).json = [] ∧
    (fetchPosts c6env "Cooking" "week" ⟨[], []⟩ 0).1 = unavailableOut ∧
    unavailableOut.ok = false := by
  exact ⟨rfl, rfl, rfl, rfl⟩

/-- C6 amended: a stage response with zero qualifying posts is treated as
a miss, not as an empty success — the JSON, RSS and HTML stages all fall
through on it, and a chain whose every stage misses returns the
unavailable failure.  The one exception is the RSS stage: a 200 whose
body passes the entry-or-item probe but yields no parseable entry blocks
is returned as a success carrying an empty list. -/
theorem claim_c6_empty_feed_amended :
    (∀ (r : JsonHttp ListingDoc) (url : String), r.status = 200 →
       childrenLen (fetchJsonOf r).json = 0 →
       jsonStepRes (NetRes.resp r) url = none) ∧
    (∀ (r : TextHttp) (url : String), r.status = 200 →
       rssFeedTest r.text = false → rssStepRes (NetRes.resp r) url = none) ∧
    (∀ (r : TextHttp) (url : String), r.status = 200 →
       parseTopFromOldRedditHTML r.text 5 = [] →
       htmlStepRes (NetRes.resp r) url = none) ∧
    (∀ (env : FetchEnv) (c tf : String), env.credsConfigured = false →
       jsonStepRes env.json0 (jsonUrl0 c tf) = none →
       jsonStepRes env.json1 (jsonUrl1 c tf) = none →
       jsonStepRes env.json2 (jsonUrl2 c tf) = none →
       rssStepRes env.rssRes (rssUrl c tf) = none →
       htmlStepRes env.htmlRes (htmlUrl c tf) = none →
       (chainCore env c tf).1 = unavailableOut) ∧
    (∀ (r : TextHttp) (url : String), r.status = 200 →
       rssFeedTest r.text = true → extractEntries r.text = [] →
       rssStepRes (NetRes.resp r) url =
         some { ok := true, posts := ([] : List Post), used := some url }) := by
  refine ⟨?_, ?_, ?_, ?_, ?_⟩
  · intro r url hs hlen
    simp only [fetchJsonOf] at hlen
    simp [jsonStepRes, fetchJsonOf, hs, hlen]
  · intro r url hs hfeed
    simp [rssStepRes, hs, hfeed]
  · intro r url hs hparse
    simp [htmlStepRes, hs, hparse]
  · intro env c tf hcfg h0 h1 h2 h3 h4
    simp [chainCore, stepsOf, driveSteps, oauthStageRes, hcfg, h0, h1, h2, h3, h4]
  · intro r url hs hfeed hent
    simp [rssStepRes, hs, hfeed, hent]

/-- Witness for the C6 amendment at the concrete environment whose JSON
stage is empty and whose mirror of the item-probe quirk yields an empty
success. -/
theorem claim_c6_empty_feed_amended_witness :
    jsonStepRes (NetRes.resp c6resp) "u" = none ∧
    (chainCore c6env "Cooking" "week").1 = unavailableOut ∧
    rssStepRes (NetRes.resp ({ status := 200, text := "<item x" } : TextHttp)) "u" =
      some { ok := true, posts := ([] : List Post), used := some "u" } :=
  ⟨claim_c6_empty_feed_amended.1 c6resp "u" rfl rfl,
   claim_c6_empty_feed_amended.2.2.2.1 c6env "Cooking" "week" rfl rfl rfl rfl
     (by decide) (by decide),
   claim_c6_empty_feed_amended.2.2.2.2
     ({ status := 200, text := "<item x" } : TextHttp) "u" rfl (by decide) rfl⟩

/-- Counterexample to C9 as stated: the RSS stage builds, from an entry
block with no title, link or id, a post whose title is the empty string
and whose url and permalink are both null, and `fetchPosts` returns it. -/
theorem claim_c9_counterexample :
    (fetchPosts c9env "x" "week" ⟨[], []⟩ 0).1.ok = true ∧
    (fetchPosts c9env "x" "week" ⟨[], []⟩ 0).1.posts = [c9badPost] ∧
    c9badPost.title = some "" ∧ c9badPost.url = none ∧
    c9badPost.permalink = none := by
  exact ⟨rfl, rfl, rfl, rfl, rfl⟩

/-- C9 amended: every post produced by the HTML stage parser carries a
(possibly empty) title string and a non-null url and permalink; posts of
the RSS and JSON stages mirror the upstream payload and may carry an
empty title and null url and permalink when the payload omits them. -/
theorem claim_c9_post_fields_amended (html : String) (mx : Nat) (p : Post)
    (hmem : p ∈ parseTopFromOldRedditHTML html mx) :
    p.title.isSome = true ∧ p.url ≠ none ∧ p.permalink ≠ none ∧
      p.source = "html" := by
  simp only [parseTopFromOldRedditHTML, List.mem_map] at hmem
  obtain ⟨m, -, rfl⟩ := hmem
  simp [htmlItemOf]

/-- Witness for the C9 amendment on a concrete listing page with one
row. -/
theorem claim_c9_post_fields_amended_witness :
    (htmlItemOf ⟨"/p", "T", "1", "2 c"⟩).title.isSome = true ∧
    (htmlItemOf ⟨"/p", "T", "1", "2 c"⟩).url ≠ none ∧
    (htmlItemOf ⟨"/p", "T", "1", "2 c"⟩).permalink ≠ none ∧
    (htmlItemOf ⟨"/p", "T", "1", "2 c"⟩).source = "html" :=
  claim_c9_post_fields_amended c9whtml 5 (htmlItemOf ⟨"/p", "T", "1", "2 c"⟩)
    (by rw [show parseTopFromOldRedditHTML c9whtml 5 =
          [htmlItemOf ⟨"/p", "T", "1", "2 c"⟩] from rfl]
        exact List.mem_singleton.mpr rfl)

/-- Counterexample to C5 as stated: a valid interleaving in which two
callers both read the idle gate before either starts lets both gated
upstream calls start at the same instant, closer than the minimum
interval. -/
theorem claim_c5_counterexample :
    gateValid c5trace = true ∧ startTimes c5trace = [1200, 1200] ∧
    gapsOK (startTimes c5trace) = false := by
  exact ⟨rfl, rfl, rfl⟩

/-- Every start of a serialized run lies at least one minimum interval
after the timestamp the run began from. -/
theorem seqInvocations_start_lb (l : List (Nat × Nat)) :
    ∀ last, seqInvocations last l = true →
      ∀ s ∈ l.map Prod.snd, last + MIN_DELAY_MS ≤ s := by
  induction l with
  | nil => simp
  | cons hd tl ih =>
    obtain ⟨r, s⟩ := hd
    intro last h
    simp only [seqInvocations, Bool.and_eq_true, decide_eq_true_eq] at h
    obtain ⟨⟨h1, h2⟩, h3⟩ := h
    have hmin : last + MIN_DELAY_MS ≤ minStartOf last r := by
      unfold minStartOf
      split <;> omega
    intro x hx
    simp only [List.map_cons, List.mem_cons] at hx
    rcases hx with rfl | hx
    · omega
    · have h4 := ih s h3 x hx
      omega

/-- C5 amended: when gate passages are serialized — each caller reads the
timestamp only after the previous gated call has started — no two gated
upstream calls start less than the minimum interval apart; under
concurrent interleaving the guarantee fails, as the counterexample trace
shows. -/
theorem claim_c5_serialized_gap_amended (last : Nat) (l : List (Nat × Nat))
    (h : seqInvocations last l = true) : gapsOK (l.map Prod.snd) = true := by
  induction l generalizing last with
  | nil => rfl
  | cons hd tl ih =>
    obtain ⟨r, s⟩ := hd
    simp only [seqInvocations, Bool.and_eq_true, decide_eq_true_eq] at h
    obtain ⟨⟨h1, h2⟩, h3⟩ := h
    simp only [List.map_cons, gapsOK, Bool.and_eq_true]
    constructor
    · rw [List.all_eq_true]
      intro u hu
      have h4 := seqInvocations_start_lb tl s h3 u hu
      simp only [Bool.or_eq_true, decide_eq_true_eq]
      left
      omega
    · exact ih s h3

/-- Witness for the C5 amendment on a concrete serialized run of two
passages. -/
theorem claim_c5_serialized_gap_amended_witness :
    gapsOK (([(0, 1200), (1250, 2400)] : List (Nat × Nat)).map Prod.snd) = true :=
  claim_c5_serialized_gap_amended 0 [(0, 1200), (1250, 2400)] (by decide)
